import Mathlib

/-!
Verification of the calender-sync repository (src/fetch_dayorder.py and
src/calender_updater.py) against its natural-language specification.

Modelling conventions:
* Day-of-month values appear in the Python source as decimal strings that are
  always compared and combined through int(...); we model them as Nat,
  identifying a canonical decimal string with its numeric value.
* The Google calendar service is modelled by a Service record: the events
  already stored per formatted date, and oracles saying which individual
  delete and insert calls raise an exception.
* Every calendar API call is recorded in a trace of CalOp values; logging via
  print is not modelled.
* Python exceptions are modelled with Except / an abort flag: an exception
  escaping the try block of update_calendar (line 121) is caught at line 173,
  so update_calendar always returns the trace of operations performed so far.
* The assignment of base_subject in create_event (calender_updater.py line 88)
  is commented out in the source, so evaluating base_subject at line 101
  raises NameError; we model that name as an erroring computation.
-/

/-- One record of data.calendar[0].days in the schedule API response
(fetch_dayorder.py). The date field is a day-of-month decimal string,
modelled as Nat. -/
structure DayRec where
  date : Nat
  dayOrder : String
deriving DecidableEq, Repr

/-- The schedule API response seen by get_next_5_day_orders: HTTP status code
and the list data.calendar[0].days. -/
structure ApiResp where
  status_code : Nat
  days : List DayRec
deriving DecidableEq, Repr

/-- Python dict assignment d[k] = v on a dict modelled as an insertion-ordered
association list: replace the value if the key is present, else append. -/
def dictInsert (k : Nat) (v : String) (d : List (Nat × String)) : List (Nat × String) :=
  if d.any (fun p => p.1 = k) then
    d.map (fun p => if p.1 = k then (k, v) else p)
  else d ++ [(k, v)]

/-- The for loop of get_next_5_day_orders (fetch_dayorder.py lines 21 to 27):
walk the day records in order, stop once count reaches 5, skip records whose
date is below today and records whose dayOrder is the sentinel "-", and insert
the qualifying ones into the accumulated dict. -/
def fetchLoop (today_date : Nat) : List DayRec → List (Nat × String) → Nat → List (Nat × String)
  | [], acc, _ => acc
  | day :: rest, acc, count =>
    if count ≥ 5 then acc
    else if day.date ≥ today_date then
      if day.dayOrder ≠ "-" then
        fetchLoop today_date rest (dictInsert day.date day.dayOrder acc) (count + 1)
      else fetchLoop today_date rest acc count
    else fetchLoop today_date rest acc count

/-- Shallow embedding of get_next_5_day_orders (fetch_dayorder.py lines 6 to 31):
on HTTP 200 build the dict of up to five upcoming day orders, otherwise
return None. today_date models datetime.now().day. -/
def get_next_5_day_orders (resp : ApiResp) (today_date : Nat) : Option (List (Nat × String)) :=
  if resp.status_code = 200 then
    some (fetchLoop today_date resp.days [] 0)
  else
    none

/-- One entry of the local class schedule table: subject, start_time and
end_time strings (config/class_schedule.json). -/
structure ClassInfo where
  subject : String
  start_time : String
  end_time : String
deriving DecidableEq, Repr

/-- The class schedule table: a dict from day-order label to the ordered list
of class entries, modelled as an association list. -/
abbrev Schedule := List (String × List ClassInfo)

/-- Python dict lookup class_schedule[str(day_order)] guarded by membership. -/
def schedLookup (s : Schedule) (k : String) : Option (List ClassInfo) :=
  (List.find? (fun p => p.1 = k) s).map (fun p => p.2)

/-- The three observable states of the config/class_schedule.json file read by
load_class_schedule: absent, present but malformed JSON, or well formed. -/
inductive FileState where
  | missing
  | malformed
  | content (s : Schedule)

/-- Shallow embedding of load_class_schedule (calender_updater.py lines 176
to 186): FileNotFoundError and json.JSONDecodeError are each caught, a
diagnostic is printed, and None is returned; otherwise the parsed table. -/
def load_class_schedule : FileState → Option Schedule
  | FileState.missing => none
  | FileState.malformed => none
  | FileState.content s => some s

/-- The static SUBJECT_COLORS table (calender_updater.py lines 8 to 16). -/
def SUBJECT_COLORS : List (String × String) :=
  [("PQT", "1"), ("AI", "9"), ("UHV", "6"), ("DAA", "3"),
   ("DIP", "2"), ("DBMS", "7"), ("SE", "10")]

/-- Python SUBJECT_COLORS.get(key, "8") (calender_updater.py line 101). -/
def subjectColorsGet (key : String) : String :=
  match List.find? (fun p => p.1 = key) SUBJECT_COLORS with
  | some p => p.2
  | none => "8"

/-- Shallow embedding of format_datetime (calender_updater.py lines 32 to 40):
zero-pad a four-character time string, then concatenate date, "T", the time,
seconds ":00" and the fixed offset "+05:30". -/
def format_datetime (date : String) (time_str : String) : String :=
  let t := if time_str.length = 4 then "0" ++ time_str else time_str
  date ++ "T" ++ t ++ ":00+05:30"

/-- An event already stored in the calendar service, as returned by the list
call: its id and summary. -/
structure EventRec where
  id : String
  summary : String
deriving DecidableEq, Repr

/-- The request body built by create_event (calender_updater.py lines 90
to 102). -/
structure GEvent where
  summary : String
  description : String
  startDateTime : String
  endDateTime : String
  colorId : String
deriving DecidableEq, Repr

/-- The calendar service as seen through its API: the events currently stored
for each formatted date, and oracles telling which individual delete and
insert calls raise an exception. -/
structure Service where
  existing : String → List EventRec
  deleteFails : String → Bool
  insertFails : GEvent → Bool

/-- One calendar API call in the trace of a reconciliation pass. -/
inductive CalOp where
  | listEvents (date : String)
  | deleteOk (date : String) (eventId : String)
  | deleteErr (date : String) (eventId : String)
  | insertOk (date : String) (ev : GEvent)
  | insertErr (date : String) (ev : GEvent)
deriving DecidableEq, Repr

/-- The formatted date an operation acts on. -/
def CalOp.date : CalOp → String
  | CalOp.listEvents d => d
  | CalOp.deleteOk d _ => d
  | CalOp.deleteErr d _ => d
  | CalOp.insertOk d _ => d
  | CalOp.insertErr d _ => d

/-- Whether an operation is an insert call against the calendar service. -/
def CalOp.isInsert : CalOp → Bool
  | CalOp.insertOk _ _ => true
  | CalOp.insertErr _ _ => true
  | _ => false

/-- Shallow embedding of get_events_for_specific_date (calender_updater.py
lines 42 to 57): one list call bounded by the formatted day start and day end,
returning the stored events together with the trace. -/
def get_events_for_specific_date (svc : Service) (date_str : String) :
    List EventRec × List CalOp :=
  let _day_start := format_datetime date_str "00:00"
  let _day_end := format_datetime date_str "23:59"
  (svc.existing date_str, [CalOp.listEvents date_str])

/-- Shallow embedding of delete_all_events_for_date (calender_updater.py lines
59 to 81): list the events of the date, then delete each one inside its own
try block, so a failing delete is logged and the loop continues with the
remaining events. -/
def delete_all_events_for_date (svc : Service) (date_str : String) : List CalOp :=
  let (events, t0) := get_events_for_specific_date svc date_str
  t0 ++ events.map (fun ev =>
    if svc.deleteFails ev.id then CalOp.deleteErr date_str ev.id
    else CalOp.deleteOk date_str ev.id)

/-- Line 88 of calender_updater.py, which would assign base_subject, is
commented out in the source; evaluating the name base_subject at line 101
therefore raises NameError. -/
def base_subject : Except String String :=
  Except.error "NameError: name base_subject is not defined"

/-- Shallow embedding of create_event (calender_updater.py lines 83 to 110):
format the start and end datetimes, build the event body whose colorId entry
reads the unbound name base_subject (raising NameError before the try block is
reached), then inside a try block issue the insert, returning True on success
and False when the insert call raises. The returned trace holds the insert
call when one is issued. -/
def create_event (svc : Service) (class_info : ClassInfo) (date_str : String)
    (day_order : String) : Except String (Bool × List CalOp) := do
  let start_datetime := format_datetime date_str class_info.start_time
  let end_datetime := format_datetime date_str class_info.end_time
  let bs ← base_subject
  let event : GEvent :=
    { summary := class_info.subject
      description := "Day Order " ++ day_order
      startDateTime := start_datetime
      endDateTime := end_datetime
      colorId := subjectColorsGet bs }
  if svc.insertFails event then
    Except.ok (false, [CalOp.insertErr date_str event])
  else
    Except.ok (true, [CalOp.insertOk date_str event])

/-- The inner for loop over class entries (calender_updater.py lines 168
to 169): call create_event for each entry; an exception escaping create_event
aborts the loop, returning the trace so far and the abort flag. -/
def run_create_events (svc : Service) (date_str : String) (day_order : String) :
    List ClassInfo → List CalOp × Bool
  | [] => ([], false)
  | ci :: rest =>
    match create_event svc ci date_str day_order with
    | Except.ok (_created, t) =>
      let (t2, ab) := run_create_events svc date_str day_order rest
      (t ++ t2, ab)
    | Except.error _ => ([], true)

/-- The for loop over day_orders.items() (calender_updater.py lines 157
to 171): for each scheduled date, delete all existing events, then insert one
event per class entry of the matching day order when the table has one; an
uncaught exception aborts the remaining dates. dateFor models the translation
today + timedelta(days = n - today.day) followed by strftime. -/
def process_scheduled (svc : Service) (sched : Schedule) (dateFor : Nat → String) :
    List (Nat × String) → List CalOp × Bool
  | [] => ([], false)
  | (n, day_order) :: rest =>
    let formatted_date := dateFor n
    let delTrace := delete_all_events_for_date svc formatted_date
    match schedLookup sched day_order with
    | some classes =>
      let (insTrace, ab) := run_create_events svc formatted_date day_order classes
      if ab then (delTrace ++ insTrace, true)
      else
        let (t2, ab2) := process_scheduled svc sched dateFor rest
        (delTrace ++ insTrace ++ t2, ab2)
    | none =>
      let (t2, ab2) := process_scheduled svc sched dateFor rest
      (delTrace ++ t2, ab2)

/-- Python min over a nonempty list of ints; the empty case never arises in
update_calendar, which guards day_orders nonempty. -/
def list_min : List Nat → Nat
  | [] => 0
  | x :: xs => xs.foldl Nat.min x

/-- Python max over a nonempty list of ints; the empty case never arises in
update_calendar. -/
def list_max : List Nat → Nat
  | [] => 0
  | x :: xs => xs.foldl Nat.max x

/-- The holiday computation of update_calendar (calender_updater.py lines 126
to 139): all dates in the inclusive range from the minimum to the maximum
fetched day number that are not themselves fetched. The source collects them
into a Python set; we list them in increasing order, the claims only concern
the underlying set. -/
def holiday_dates (day_orders : List (Nat × String)) : List Nat :=
  let date_numbers := day_orders.map (fun p => p.1)
  let min_date := list_min date_numbers
  let max_date := list_max date_numbers
  (List.range' min_date (max_date + 1 - min_date)).filter
    (fun n => !date_numbers.contains n)

/-- Shallow embedding of update_calendar (calender_updater.py lines 112
to 174). The fetch result is computed from the API response and the current
day-of-month; a falsy result (None or the empty dict) skips the update.
Inside the try block: compute the holiday dates and delete all events on each,
then load the class schedule (returning if that fails), then process each
scheduled date. An exception raised inside the try block is caught at line
173 and logged, so the function returns the operations performed so far. -/
def update_calendar (resp : ApiResp) (today_day : Nat) (dateFor : Nat → String)
    (svc : Service) (file : FileState) : List CalOp :=
  match get_next_5_day_orders resp today_day with
  | none => []
  | some day_orders =>
    if day_orders.isEmpty then []
    else
      let hol := holiday_dates day_orders
      let holTrace := hol.flatMap (fun n => delete_all_events_for_date svc (dateFor n))
      match load_class_schedule file with
      | none => holTrace
      | some class_schedule =>
        holTrace ++ (process_scheduled svc class_schedule dateFor day_orders).1

/-! Helper lemmas about the embedded operations. -/

theorem dictInsert_length (k : Nat) (v : String) (d : List (Nat × String)) :
    (dictInsert k v d).length ≤ d.length + 1 := by
  unfold dictInsert
  split
  · simp
  · simp

theorem dictInsert_mem {k : Nat} {v : String} {d : List (Nat × String)}
    {p : Nat × String} (h : p ∈ dictInsert k v d) : p = (k, v) ∨ p ∈ d := by
  unfold dictInsert at h
  split at h
  · rcases List.mem_map.mp h with ⟨q, hq, hfq⟩
    by_cases hk : q.1 = k
    · left
      rw [if_pos hk] at hfq
      exact hfq.symm
    · right
      rw [if_neg hk] at hfq
      exact hfq ▸ hq
  · rcases List.mem_append.mp h with h | h
    · right; exact h
    · left; simpa using h

theorem fetchLoop_length (t : Nat) (days : List DayRec) :
    ∀ (acc : List (Nat × String)) (count : Nat),
      acc.length ≤ count → count ≤ 5 → (fetchLoop t days acc count).length ≤ 5 := by
  induction days with
  | nil =>
    intro acc count h1 h2
    simpa [fetchLoop] using le_trans h1 h2
  | cons day rest ih =>
    intro acc count h1 h2
    unfold fetchLoop
    by_cases hc : count ≥ 5
    · rw [if_pos hc]
      exact le_trans h1 h2
    · rw [if_neg hc]
      by_cases hd : day.date ≥ t
      · rw [if_pos hd]
        by_cases ho : day.dayOrder ≠ "-"
        · rw [if_pos ho]
          exact ih (dictInsert day.date day.dayOrder acc) (count + 1)
            (le_trans (dictInsert_length day.date day.dayOrder acc) (by omega)) (by omega)
        · rw [if_neg ho]
          exact ih acc count h1 h2
      · rw [if_neg hd]
        exact ih acc count h1 h2

theorem fetchLoop_mem (t : Nat) (days : List DayRec) :
    ∀ (acc : List (Nat × String)) (count : Nat),
      (∀ p ∈ acc, t ≤ p.1 ∧ p.2 ≠ "-") →
      ∀ p ∈ fetchLoop t days acc count, t ≤ p.1 ∧ p.2 ≠ "-" := by
  induction days with
  | nil =>
    intro acc count hacc
    simpa [fetchLoop] using hacc
  | cons day rest ih =>
    intro acc count hacc
    unfold fetchLoop
    by_cases hc : count ≥ 5
    · rw [if_pos hc]
      exact hacc
    · rw [if_neg hc]
      by_cases hd : day.date ≥ t
      · rw [if_pos hd]
        by_cases ho : day.dayOrder ≠ "-"
        · rw [if_pos ho]
          refine ih (dictInsert day.date day.dayOrder acc) (count + 1) ?_
          intro p hp
          rcases dictInsert_mem hp with hp | hp
          · rw [hp]
            exact ⟨hd, ho⟩
          · exact hacc p hp
        · rw [if_neg ho]
          exact ih acc count hacc
      · rw [if_neg hd]
        exact ih acc count hacc

theorem fetchLoop_all_filtered (t : Nat) (days : List DayRec)
    (hall : ∀ d ∈ days, d.date < t ∨ d.dayOrder = "-") :
    ∀ (acc : List (Nat × String)) (count : Nat), fetchLoop t days acc count = acc := by
  induction days with
  | nil =>
    intro acc count
    rfl
  | cons day rest ih =>
    intro acc count
    have hrest : ∀ d ∈ rest, d.date < t ∨ d.dayOrder = "-" := by
      intro d hd
      exact hall d (List.mem_cons_of_mem day hd)
    have hday := hall day (List.mem_cons_self day rest)
    unfold fetchLoop
    by_cases hc : count ≥ 5
    · rw [if_pos hc]
    · rw [if_neg hc]
      by_cases hd : day.date ≥ t
      · rw [if_pos hd]
        have ho : ¬ day.dayOrder ≠ "-" := by
          rcases hday with hday | hday
          · omega
          · simp [hday]
        rw [if_neg ho]
        exact ih hrest acc count
      · rw [if_neg hd]
        exact ih hrest acc count

theorem foldl_min_le (x : Nat) (xs : List Nat) : xs.foldl Nat.min x ≤ x := by
  induction xs generalizing x with
  | nil => simp
  | cons y ys ih => exact le_trans (ih (Nat.min x y)) (Nat.min_le_left x y)

theorem foldl_min_le_mem {a : Nat} {xs : List Nat} (x : Nat) (h : a ∈ xs) :
    xs.foldl Nat.min x ≤ a := by
  induction xs generalizing x with
  | nil => cases h
  | cons y ys ih =>
    rcases List.mem_cons.mp h with h | h
    · subst h
      exact le_trans (foldl_min_le (Nat.min x a) ys) (Nat.min_le_right x a)
    · exact ih (Nat.min x y) h

theorem le_foldl_max (x : Nat) (xs : List Nat) : x ≤ xs.foldl Nat.max x := by
  induction xs generalizing x with
  | nil => simp
  | cons y ys ih => exact le_trans (Nat.le_max_left x y) (ih (Nat.max x y))

theorem mem_le_foldl_max {a : Nat} {xs : List Nat} (x : Nat) (h : a ∈ xs) :
    a ≤ xs.foldl Nat.max x := by
  induction xs generalizing x with
  | nil => cases h
  | cons y ys ih =>
    rcases List.mem_cons.mp h with h | h
    · subst h
      exact le_trans (Nat.le_max_right x a) (le_foldl_max (Nat.max x a) ys)
    · exact ih (Nat.max x y) h

theorem list_min_le {l : List Nat} {a : Nat} (h : a ∈ l) : list_min l ≤ a := by
  cases l with
  | nil => cases h
  | cons x xs =>
    rcases List.mem_cons.mp h with h | h
    · subst h
      exact foldl_min_le a xs
    · exact foldl_min_le_mem x h

theorem le_list_max {l : List Nat} {a : Nat} (h : a ∈ l) : a ≤ list_max l := by
  cases l with
  | nil => cases h
  | cons x xs =>
    rcases List.mem_cons.mp h with h | h
    · subst h
      exact le_foldl_max a xs
    · exact mem_le_foldl_max x h

theorem list_min_le_list_max {l : List Nat} (h : l ≠ []) : list_min l ≤ list_max l := by
  cases l with
  | nil => exact absurd rfl h
  | cons x xs =>
    exact le_trans (list_min_le (List.mem_cons_self x xs))
      (le_list_max (List.mem_cons_self x xs))

theorem delete_all_op_date {svc : Service} {d : String} {op : CalOp}
    (h : op ∈ delete_all_events_for_date svc d) : op.date = d := by
  unfold delete_all_events_for_date get_events_for_specific_date at h
  rcases List.mem_append.mp h with h | h
  · simp only [List.mem_singleton] at h
    rw [h]
    rfl
  · rcases List.mem_map.mp h with ⟨ev, _, hev⟩
    by_cases hf : svc.deleteFails ev.id
    · rw [if_pos hf] at hev
      rw [← hev]
      rfl
    · rw [if_neg hf] at hev
      rw [← hev]
      rfl

/-! Claim theorems. -/

/-- C8: format_datetime concatenates its date and time arguments into an
RFC3339-like string with seconds ":00" and fixed offset "+05:30",
zero-padding an H:MM time to HH:MM; in particular the two documented
examples hold. -/
theorem format_datetime_examples :
    format_datetime "2024-05-01" "9:30" = "2024-05-01T09:30:00+05:30" ∧
    format_datetime "2024-05-01" "14:00" = "2024-05-01T14:00:00+05:30" :=
  ⟨rfl, rfl⟩

/-- C9: format_datetime prepends a leading zero exactly when the time string
has length 4; any other length is embedded verbatim, and the result is always
date, "T", the possibly padded time, and ":00+05:30". -/
theorem format_datetime_pad (date time_str : String) :
    (time_str.length = 4 →
      format_datetime date time_str = date ++ "T" ++ ("0" ++ time_str) ++ ":00+05:30") ∧
    (time_str.length ≠ 4 →
      format_datetime date time_str = date ++ "T" ++ time_str ++ ":00+05:30") := by
  constructor
  · intro h
    simp [format_datetime, h]
  · intro h
    simp [format_datetime, h]

/-- Witness for C9 at the three-character time "1:5", embedded verbatim. -/
theorem format_datetime_pad_witness :
    format_datetime "2024-05-01" "1:5" = "2024-05-01" ++ "T" ++ "1:5" ++ ":00+05:30" :=
  (format_datetime_pad "2024-05-01" "1:5").2 (by decide)

/-- C2: on an HTTP 200 response the mapping returned by get_next_5_day_orders
has at most 5 entries, and every entry has a day-of-month at least the current
day-of-month and a day order different from the sentinel "-". -/
theorem fetch_result_bounded_and_filtered (resp : ApiResp) (today_date : Nat)
    (m : List (Nat × String)) (h200 : resp.status_code = 200)
    (hm : get_next_5_day_orders resp today_date = some m) :
    m.length ≤ 5 ∧ ∀ p ∈ m, today_date ≤ p.1 ∧ p.2 ≠ "-" := by
  unfold get_next_5_day_orders at hm
  rw [if_pos h200] at hm
  have hm' : fetchLoop today_date resp.days [] 0 = m := Option.some.inj hm
  subst hm'
  refine ⟨fetchLoop_length today_date resp.days [] 0 (by simp) (by omega), ?_⟩
  exact fetchLoop_mem today_date resp.days [] 0 (by simp)

/-- Witness for C2 on a concrete 200 response with days 15, 16 (sentinel)
and 17 seen from day 15. -/
theorem fetch_result_witness :
    ([((15 : Nat), "3"), (17, "1")] : List (Nat × String)).length ≤ 5 ∧
    ∀ p ∈ ([((15 : Nat), "3"), (17, "1")] : List (Nat × String)), 15 ≤ p.1 ∧ p.2 ≠ "-" :=
  fetch_result_bounded_and_filtered
    ⟨200, [⟨15, "3"⟩, ⟨16, "-"⟩, ⟨17, "1"⟩]⟩ 15 _ rfl (by decide)

/-- C3: a response whose HTTP status is not 200 makes get_next_5_day_orders
return None, and update_calendar then performs zero calendar operations. -/
theorem fetch_failure_skips_update (resp : ApiResp) (today_day : Nat)
    (dateFor : Nat → String) (svc : Service) (file : FileState)
    (h : resp.status_code ≠ 200) :
    get_next_5_day_orders resp today_day = none ∧
    update_calendar resp today_day dateFor svc file = [] := by
  have h1 : get_next_5_day_orders resp today_day = none := by
    unfold get_next_5_day_orders
    rw [if_neg h]
  refine ⟨h1, ?_⟩
  unfold update_calendar
  rw [h1]

/-- Witness for C3 on a concrete 500 response. -/
theorem fetch_failure_witness :
    get_next_5_day_orders ⟨500, [⟨15, "1"⟩]⟩ 15 = none ∧
    update_calendar ⟨500, [⟨15, "1"⟩]⟩ 15 (fun n => "day-" ++ toString n)
      ⟨fun _ => [⟨"e1", "Old"⟩], fun _ => false, fun _ => false⟩ FileState.missing = [] :=
  fetch_failure_skips_update ⟨500, [⟨15, "1"⟩]⟩ 15 (fun n => "day-" ++ toString n)
    ⟨fun _ => [⟨"e1", "Old"⟩], fun _ => false, fun _ => false⟩ FileState.missing (by decide)

/-- C10: a 200 response all of whose day records are filtered out (date below
the current day-of-month, or sentinel day order) yields the empty mapping, and
update_calendar performs zero calendar operations, exactly like a failed
fetch. -/
theorem all_filtered_skips_update (resp : ApiResp) (today_day : Nat)
    (dateFor : Nat → String) (svc : Service) (file : FileState)
    (h200 : resp.status_code = 200)
    (hall : ∀ d ∈ resp.days, d.date < today_day ∨ d.dayOrder = "-") :
    get_next_5_day_orders resp today_day = some [] ∧
    update_calendar resp today_day dateFor svc file = [] := by
  have h1 : get_next_5_day_orders resp today_day = some [] := by
    unfold get_next_5_day_orders
    rw [if_pos h200, fetchLoop_all_filtered today_day resp.days hall]
  refine ⟨h1, ?_⟩
  unfold update_calendar
  rw [h1]
  rfl

/-- Witness for C10: a 200 response with one stale day and one sentinel day
seen from day 15. -/
theorem all_filtered_witness :
    get_next_5_day_orders ⟨200, [⟨10, "1"⟩, ⟨16, "-"⟩]⟩ 15 = some [] ∧
    update_calendar ⟨200, [⟨10, "1"⟩, ⟨16, "-"⟩]⟩ 15 (fun n => "day-" ++ toString n)
      ⟨fun _ => [⟨"e1", "Old"⟩], fun _ => false, fun _ => false⟩ FileState.missing = [] :=
  all_filtered_skips_update ⟨200, [⟨10, "1"⟩, ⟨16, "-"⟩]⟩ 15
    (fun n => "day-" ++ toString n)
    ⟨fun _ => [⟨"e1", "Old"⟩], fun _ => false, fun _ => false⟩ FileState.missing
    (by decide) (by decide)

/-- C4: for a nonempty fetched mapping, the holiday set computed by
update_calendar is exactly the complement of the fetched day numbers inside
the inclusive range from their minimum to their maximum. -/
theorem holiday_dates_complement (day_orders : List (Nat × String))
    (h : day_orders ≠ []) (n : Nat) :
    n ∈ holiday_dates day_orders ↔
      list_min (day_orders.map (fun p => p.1)) ≤ n ∧
      n ≤ list_max (day_orders.map (fun p => p.1)) ∧
      n ∉ day_orders.map (fun p => p.1) := by
  have hne : day_orders.map (fun p => p.1) ≠ [] := by simpa using h
  have hmm := list_min_le_list_max hne
  unfold holiday_dates
  rw [List.mem_filter, List.mem_range'_1]
  constructor
  · rintro ⟨⟨h1, h2⟩, h3⟩
    refine ⟨h1, by omega, ?_⟩
    simpa using h3
  · rintro ⟨h1, h2, h3⟩
    refine ⟨⟨h1, by omega⟩, ?_⟩
    simpa using h3

/-- Witness for C4: a fetch covering days 15 and 17 with 16 missing computes
the holiday set exactly as the singleton of 16. -/
theorem holiday_dates_witness :
    holiday_dates [((15 : Nat), "3"), (17, "1")] = [16] ∧
    (16 ∈ holiday_dates [((15 : Nat), "3"), (17, "1")] ↔
      list_min ([((15 : Nat), "3"), (17, "1")].map (fun p => p.1)) ≤ 16 ∧
      16 ≤ list_max ([((15 : Nat), "3"), (17, "1")].map (fun p => p.1)) ∧
      16 ∉ [((15 : Nat), "3"), (17, "1")].map (fun p => p.1)) :=
  ⟨by decide, holiday_dates_complement [((15 : Nat), "3"), (17, "1")] (by decide) 16⟩

/-- C7: a missing or malformed class schedule file makes load_class_schedule
return None, and update_calendar then aborts: every calendar operation it
performed belongs to the holiday deletions that precede the load, so no
scheduled date is touched and nothing is inserted. -/
theorem load_failure_aborts (resp : ApiResp) (today_day : Nat)
    (dateFor : Nat → String) (svc : Service) (file : FileState)
    (h : file = FileState.missing ∨ file = FileState.malformed) :
    load_class_schedule file = none ∧
    ∀ op ∈ update_calendar resp today_day dateFor svc file,
      ∃ day_orders, get_next_5_day_orders resp today_day = some day_orders ∧
        ∃ n ∈ holiday_dates day_orders, op.date = dateFor n := by
  have hload : load_class_schedule file = none := by
    rcases h with h | h <;> rw [h] <;> rfl
  refine ⟨hload, ?_⟩
  intro op hop
  unfold update_calendar at hop
  cases hfetch : get_next_5_day_orders resp today_day with
  | none =>
    rw [hfetch] at hop
    simp at hop
  | some m =>
    rw [hfetch] at hop
    simp only [hload] at hop
    by_cases hem : m.isEmpty
    · rw [if_pos hem] at hop
      simp at hop
    · rw [if_neg hem] at hop
      rcases List.mem_flatMap.mp hop with ⟨n, hn, hop2⟩
      exact ⟨m, rfl, n, hn, delete_all_op_date hop2⟩

/-- Witness for C7: with a missing schedule file and a fetch with days 15 and
17 seen from day 15, every operation performed is a holiday deletion on the
date derived from day 16. -/
theorem load_failure_witness :
    load_class_schedule FileState.missing = none ∧
    ∀ op ∈ update_calendar ⟨200, [⟨15, "1"⟩, ⟨17, "2"⟩]⟩ 15
        (fun n => "day-" ++ toString n)
        ⟨fun _ => [⟨"e1", "Old"⟩], fun _ => false, fun _ => false⟩ FileState.missing,
      ∃ day_orders, get_next_5_day_orders ⟨200, [⟨15, "1"⟩, ⟨17, "2"⟩]⟩ 15 = some day_orders ∧
        ∃ n ∈ holiday_dates day_orders, op.date = (fun n => "day-" ++ toString n) n :=
  load_failure_aborts ⟨200, [⟨15, "1"⟩, ⟨17, "2"⟩]⟩ 15 (fun n => "day-" ++ toString n)
    ⟨fun _ => [⟨"e1", "Old"⟩], fun _ => false, fun _ => false⟩ FileState.missing
    (Or.inl rfl)

/-- C5: the claim says create_event colors each event by looking the subject
up in SUBJECT_COLORS with default "8"; in the source the lookup key is the
unbound name base_subject (its assignment at line 88 is commented out), so
every call to create_event raises NameError before any event is built or
inserted. -/
theorem create_event_always_raises (svc : Service) (class_info : ClassInfo)
    (date_str day_order : String) :
    create_event svc class_info date_str day_order =
      Except.error "NameError: name base_subject is not defined" :=
  rfl

/-- C1: the claim says a processed date whose day order maps to two class
entries yields exactly two inserts after a delete-all; in the source the first
create_event raises NameError, the outer handler of update_calendar catches
it, and the pass ends having listed and deleted the prior event but issued
zero insert calls. -/
theorem reconcile_day_order_aborts :
    update_calendar ⟨200, [⟨15, "3"⟩]⟩ 15 (fun n => "day-" ++ toString n)
      ⟨fun d => if d = "day-15" then [⟨"e1", "Old"⟩] else [],
        fun _ => false, fun _ => false⟩
      (FileState.content [("3", [⟨"PQT", "9:30", "10:20"⟩, ⟨"AI", "10:20", "11:10"⟩])]) =
      [CalOp.listEvents "day-15", CalOp.deleteOk "day-15" "e1"] := by
  decide

/-- C6: the claim says one failing delete or insert never aborts the pass; in
the source a failing delete is indeed contained (the deleteErr on e1 is
followed by the deleteOk on e2), but the first create_event raises NameError
outside its try block, so the pass aborts and the second scheduled date
(day-16, holding event e3) is never listed, cleaned or filled. -/
theorem delete_contained_but_create_aborts :
    update_calendar ⟨200, [⟨15, "1"⟩, ⟨16, "1"⟩]⟩ 15 (fun n => "day-" ++ toString n)
      ⟨fun d => if d = "day-15" then [⟨"e1", "A"⟩, ⟨"e2", "B"⟩]
                else if d = "day-16" then [⟨"e3", "C"⟩] else [],
        fun i => i == "e1", fun _ => false⟩
      (FileState.content [("1", [⟨"DBMS", "8:00", "8:50"⟩])]) =
      [CalOp.listEvents "day-15", CalOp.deleteErr "day-15" "e1",
       CalOp.deleteOk "day-15" "e2"] := by
  decide
